import Mathlib

/-!
Verification development for the lightwalletd fork: a shallow embedding of
the frontend RPC-client construction (`frontend/rpc_client.go`), the server
startup wiring (`cmd/server/main.go`), the Prometheus metrics collection
(`common/prometheusmetrics.go`), and a spec-level model of the block cache.
-/

namespace Lightwalletd

/-! ## Frontend RPC client (`frontend` package)

Go errors are modelled as `Option String`: `none` is the nil error. -/

/-- Semantics of `errors.Wrap` from `github.com/pkg/errors`: if the wrapped
error is nil, `Wrap` returns nil; otherwise it annotates the error with the
message. -/
def errorsWrap (e : Option String) (msg : String) : Option String :=
  match e with
  | none => none
  | some s => some (msg ++ ": " ++ s)

/-- The fields of `rpcclient.ConnConfig` that `NewZRPCFromCreds` sets. -/
structure ConnConfig where
  host : String
  user : String
  pass : String
  httpPostMode : Bool
  disableTLS : Bool
  deriving DecidableEq

/-- Embedding of `frontend.NewZRPCFromCreds`: builds the connection config
with HTTP POST mode on and TLS off, for any address and credentials.
(`rpcclient.New` itself is pure construction and is modelled as always
succeeding, so the function's result is the `ConnConfig`.) -/
def NewZRPCFromCreds (addr username password : String) : ConnConfig :=
  { host := addr
    user := username
    pass := password
    httpPostMode := true
    disableTLS := true }

/-- The four keys of the default ini section that `NewZRPCFromConf` reads.
`ini`'s `Key(...).String()` returns `""` for an absent key, so an absent key
is the empty string. -/
structure IniConfig where
  rpcbind : String
  rpcport : String
  rpcuser : String
  rpcpassword : String
  deriving DecidableEq

/-- Semantics of `net.JoinHostPort`: wraps the host in square brackets when
it contains a colon or a percent sign, then joins with a colon. -/
def joinHostPort (host port : String) : String :=
  if host.contains ':' || host.contains '%' then
    "[" ++ host ++ "]:" ++ port
  else
    host ++ ":" ++ port

/-- Embedding of `frontend.NewZRPCFromConf`. Its input is the result of
`ini.Load` (either a load error or the parsed key values); its output is the
Go pair `(client, error)`. Note the missing-credentials branch returns
`errorsWrap err ...` where `err` is the nil error left over from the
successful `ini.Load` — exactly as the source does. -/
def NewZRPCFromConf (loadResult : Except String IniConfig) :
    Option ConnConfig × Option String :=
  match loadResult with
  | .error e => (none, errorsWrap (some e) "failed to read config file")
  | .ok cfg =>
    let rpcaddr := if cfg.rpcbind = "" then "127.0.0.1" else cfg.rpcbind
    let rpcport := if cfg.rpcport = "" then "23811" else cfg.rpcport
    if cfg.rpcuser = "" ∨ cfg.rpcpassword = "" then
      (none, errorsWrap none "username and/or password are not set in config file")
    else
      (some (NewZRPCFromCreds (joinHostPort rpcaddr rpcport)
              cfg.rpcuser cfg.rpcpassword), none)

/-! ## Server startup wiring (`cmd/server/main.go`) -/

/-- Levels of the logrus calls appearing in `main`; `Fatal` exits the
process, `Warn` and `Info` do not. -/
inductive LogLevel where
  | info
  | warn
  | fatal
  deriving DecidableEq

/-- Whether a log call at this level terminates the process (logrus
`Fatal` calls `os.Exit` after logging). -/
def logLevelExits : LogLevel → Bool
  | .fatal => true
  | _ => false

/-- The client and the log calls produced by main's RPC initialisation step. -/
structure RPCSetupResult where
  client : Option ConnConfig
  logs : List LogLevel
  deriving DecidableEq

/-- Embedding of main's RPC initialisation: call `NewZRPCFromConf`; when it
returns a non-nil error, log a warning and fall back to
`NewZRPCFromCreds("127.0.0.1:23811", "", "")` (pure construction, which
succeeds, so the inner error branch with its second warning is not taken). -/
def mainRPCSetup (loadResult : Except String IniConfig) : RPCSetupResult :=
  match NewZRPCFromConf loadResult with
  | (client, none) => ⟨client, []⟩
  | (_, some _) => ⟨some (NewZRPCFromCreds "127.0.0.1:23811" "" ""), [.warn]⟩

/-- Whether main's RPC initialisation step exits the process. -/
def rpcSetupExits (loadResult : Except String IniConfig) : Bool :=
  ((mainRPCSetup loadResult).logs.any logLevelExits)

/-- The default value of the `no-tls` flag. -/
def defaultNoTLS : Bool := false

/-- Embedding of main's TLS-material check: the process calls `os.Exit(1)`
exactly when `no-tls` is unset and the cert path or the key path is empty. -/
def tlsCheckExits (noTLS : Bool) (tlsCertPath tlsKeyPath : String) : Bool :=
  !noTLS && (tlsCertPath = "" || tlsKeyPath = "")

/-- Embedding of main's cache-start computation: start the live ingestor 100
blocks below the best height, clamped up to the sapling activation height. -/
def cacheStart (blockHeight saplingHeight : Int) : Int :=
  let s := blockHeight - 100
  if s < saplingHeight then saplingHeight else s

/-- The height argument main passes to `common.BlockIngestor`. -/
def mainLiveIngestorStart (blockHeight saplingHeight : Int) : Int :=
  cacheStart blockHeight saplingHeight

/-- The `Int` arguments of the `common.HistoricalBlockIngestor` call. -/
structure HistoricalIngestorCall where
  startHeight : Int
  repSize : Int
  floor : Int
  deriving DecidableEq

/-- Embedding of main's historical-ingestor launch:
`go common.HistoricalBlockIngestor(rpcClient, cache, log, cacheStart-1,
opts.cacheSize, saplingHeight)`. -/
def mainHistoricalIngestorCall (blockHeight saplingHeight cacheSize : Int) :
    HistoricalIngestorCall :=
  ⟨cacheStart blockHeight saplingHeight - 1, cacheSize, saplingHeight⟩

/-- Actions of main's signal-handler goroutine. -/
inductive MainAction where
  | gracefulStopServer
  | sendOnStopChan
  deriving DecidableEq

/-- The signals registered with `signal.Notify`. -/
def shutdownSignals : List String := ["SIGINT", "SIGTERM"]

/-- What the signal-handler goroutine does on receiving a signal: stop the
gRPC server gracefully, then send `true` on `stopChan`. -/
def signalHandlerActions (s : String) : List MainAction :=
  if s ∈ shutdownSignals then [.gracefulStopServer, .sendOnStopChan] else []

/-- The channels bound to stop parameters at main's `BlockIngestor` call
site: `go common.BlockIngestor(rpcClient, cache, log, stopChan, cacheStart)`
passes `stopChan`. -/
def blockIngestorStopChans : List String := ["stopChan"]

/-- The channels bound to stop parameters at main's
`HistoricalBlockIngestor` call site: the call
`go common.HistoricalBlockIngestor(rpcClient, cache, log, cacheStart-1,
opts.cacheSize, saplingHeight)` passes no channel at all. -/
def historicalBlockIngestorStopChans : List String := []

/-- An ingestor is signalled to stop by signal `s` when the handler for `s`
sends on `stopChan` and the ingestor was given `stopChan`. -/
def ingestorSignalled (s : String) (chans : List String) : Bool :=
  decide (MainAction.sendOnStopChan ∈ signalHandlerActions s) &&
    chans.contains "stopChan"

/-! ## Prometheus metrics (`common/prometheusmetrics.go` and main's `init`) -/

/-- A Prometheus counter: name, help text and current value. A counter's
value is a `Nat` because the `Counter` interface only offers `Inc` and
`Add` with a non-negative argument. -/
structure Counter where
  name : String
  help : String
  value : Nat
  deriving DecidableEq

/-- `prometheus.NewCounter`: a fresh counter starts at zero. -/
def newCounter (name help : String) : Counter := ⟨name, help, 0⟩

/-- The `PrometheusMetrics` collection declared in
`common/prometheusmetrics.go`: exactly four counter fields. -/
structure PrometheusMetrics where
  LatestBlockCounter : Counter
  TotalBlocksServedConter : Counter
  SendTransactionsCounter : Counter
  TotalErrors : Counter
  deriving DecidableEq

/-- Embedding of `common.GetPrometheusMetrics`. -/
def GetPrometheusMetrics : PrometheusMetrics :=
  { LatestBlockCounter :=
      newCounter "lightwalletd_get_latest_block"
        "Number of times GetLatestBlock was called"
    TotalBlocksServedConter :=
      newCounter "lightwalletd_total_blocks_served"
        "Total number of blocks served by lightwalletd"
    SendTransactionsCounter :=
      newCounter "lightwalletd_total_send_transactions"
        "Total number of transactions broadcasted by lightwalletd"
    TotalErrors :=
      newCounter "lightwalletd_total_errors"
        "Total number of errors seen by lightwalletd" }

/-- The metric fields registered with `promRegistry.MustRegister` in
main's `init`, in source order. -/
def registeredMetricFields : List String :=
  ["LatestBlockCounter", "TotalErrors", "TotalBlocksServedConter",
   "SendTransactionsCounter", "TotalSaplingParamsCounter",
   "TotalSproutParamsCounter"]

/-- The four metrics the spec names (latest-block queries, blocks served,
transactions submitted, total errors), stated from the spec's words for
comparison with the registration list. -/
def specClaimedMetricFields : List String :=
  ["LatestBlockCounter", "TotalBlocksServedConter",
   "SendTransactionsCounter", "TotalErrors"]

/-- The operations the Prometheus `Counter` interface offers: `Inc` and
`Add` with a non-negative argument. -/
inductive CounterOp where
  | inc
  | add (n : Nat)

/-- Effect of one counter operation. -/
def applyCounterOp (c : Counter) : CounterOp → Counter
  | .inc => { c with value := c.value + 1 }
  | .add n => { c with value := c.value + n }

/-- Effect of a sequence of counter operations. -/
def runCounterOps (c : Counter) (ops : List CounterOp) : Counter :=
  ops.foldl applyCounterOp c

/-! ## BlockCache

Modelled from the spec: the `common` package's BlockCache implementation is
not among the provided source files; the model below follows the spec's §3
and §4.1 word for word. The cache is a contiguous window of blocks starting
at height `lo`; position `i` of `blocks` holds the block at height
`lo + i`. -/

/-- Modelled from the spec: the per-block representation retained in memory
(height, own hash, parent hash; timestamp and transactions are irrelevant to
the hash-chain invariant and elided). -/
structure CompactBlock where
  height : Int
  hash : Nat
  prevHash : Nat
  deriving DecidableEq

/-- Modelled from the spec: the bounded height-indexed store; `blocks`
lists the resident window `[lo, lo + blocks.length - 1]` in height order. -/
structure BlockCache where
  lo : Int
  blocks : List CompactBlock
  capacity : Nat
  deriving DecidableEq

/-- Modelled from the spec: the cache is created empty with a fixed
capacity. -/
def emptyCache (capacity : Nat) : BlockCache := ⟨0, [], capacity⟩

/-- Modelled from the spec: `GetBlock(height)` is a point lookup returning
NotFound outside the resident window. -/
def getBlock (c : BlockCache) (h : Int) : Option CompactBlock :=
  if h < c.lo then none else c.blocks[(h - c.lo).toNat]?

/-- Modelled from the spec: `EvictOldestIfOverCapacity` removes entries at
`lo` (incrementing `lo`) while the window exceeds the capacity. -/
def evictOldest (c : BlockCache) : BlockCache :=
  ⟨c.lo + ((c.blocks.length - c.capacity : Nat) : Int),
   c.blocks.drop (c.blocks.length - c.capacity), c.capacity⟩

/-- Modelled from the spec: the live-path `Add` appends at `hi + 1`,
rejecting (leaving the cache unchanged) a height gap or a hash mismatch
with the resident tip, then runs the eviction policy. On an empty cache the
first block is accepted as the initial window. -/
def addLive (c : BlockCache) (b : CompactBlock) : BlockCache :=
  match c.blocks.getLast? with
  | none => evictOldest ⟨b.height, [b], c.capacity⟩
  | some tip =>
    if b.height = c.lo + (c.blocks.length : Int) ∧ b.prevHash = tip.hash then
      evictOldest ⟨c.lo, c.blocks ++ [b], c.capacity⟩
    else c

/-- Modelled from the spec: the historical-path `Add` prepends at `lo - 1`,
rejecting a height gap or a mismatch between the resident bottom block's
`prevHash` and the new block's hash. -/
def addHistorical (c : BlockCache) (b : CompactBlock) : BlockCache :=
  match c.blocks with
  | [] => ⟨b.height, [b], c.capacity⟩
  | bottom :: rest =>
    if b.height = c.lo - 1 ∧ bottom.prevHash = b.hash then
      ⟨c.lo - 1, b :: bottom :: rest, c.capacity⟩
    else c

/-- Modelled from the spec: `Truncate(fromHeight)` drops all resident
entries at `fromHeight` and above. -/
def truncateFrom (c : BlockCache) (fromHeight : Int) : BlockCache :=
  ⟨c.lo, c.blocks.take (fromHeight - c.lo).toNat, c.capacity⟩

/-- The cache operations available to the two ingestors. -/
inductive CacheOp where
  | addL (b : CompactBlock)
  | addH (b : CompactBlock)
  | trunc (fromHeight : Int)
  | evict

/-- One cache operation. -/
def applyCacheOp (c : BlockCache) : CacheOp → BlockCache
  | .addL b => addLive c b
  | .addH b => addHistorical c b
  | .trunc f => truncateFrom c f
  | .evict => evictOldest c

/-- A reachable cache state: the result of a sequence of operations applied
to the empty cache. -/
def runCacheOps (capacity : Nat) (ops : List CacheOp) : BlockCache :=
  ops.foldl applyCacheOp (emptyCache capacity)

/-- A list of blocks is hash-chained when each block's successor names the
block's hash as its parent. -/
def Linked (l : List CompactBlock) : Prop :=
  ∀ (i : Nat) (b1 b2 : CompactBlock),
    l[i]? = some b1 → l[i+1]? = some b2 → b2.prevHash = b1.hash

/-- The contiguity/consistency invariant of the cache. -/
def Consistent (c : BlockCache) : Prop := Linked c.blocks

theorem linked_nil : Linked [] := by
  intro i b1 b2 h1 _
  simp at h1

theorem linked_singleton (b : CompactBlock) : Linked [b] := by
  intro i b1 b2 _ h2
  rcases List.getElem?_eq_some_iff.mp h2 with ⟨hlt, _⟩
  simp at hlt

theorem linked_drop {l : List CompactBlock} (hl : Linked l) (k : Nat) :
    Linked (l.drop k) := by
  intro i b1 b2 h1 h2
  rw [List.getElem?_drop] at h1 h2
  have hk : k + (i + 1) = (k + i) + 1 := by omega
  rw [hk] at h2
  exact hl (k + i) b1 b2 h1 h2

theorem linked_take {l : List CompactBlock} (hl : Linked l) (n : Nat) :
    Linked (l.take n) := by
  intro i b1 b2 h1 h2
  rcases List.getElem?_eq_some_iff.mp h2 with ⟨hlt, _⟩
  have hn : i + 1 < n := lt_of_lt_of_le hlt (by simp)
  rw [List.getElem?_take_of_lt hn] at h2
  rw [List.getElem?_take_of_lt (by omega)] at h1
  exact hl i b1 b2 h1 h2

theorem linked_concat {l : List CompactBlock} {tip b : CompactBlock}
    (hl : Linked l) (htip : l.getLast? = some tip)
    (hb : b.prevHash = tip.hash) : Linked (l ++ [b]) := by
  intro i b1 b2 h1 h2
  rcases List.getElem?_eq_some_iff.mp h2 with ⟨hlt, _⟩
  simp only [List.length_append, List.length_cons, List.length_nil] at hlt
  by_cases hi : i + 1 < l.length
  · rw [List.getElem?_append_left hi] at h2
    rw [List.getElem?_append_left (by omega)] at h1
    exact hl i b1 b2 h1 h2
  · have hieq : i + 1 = l.length := by omega
    rw [hieq, List.getElem?_concat_length] at h2
    rw [List.getElem?_append_left (by omega)] at h1
    rw [List.getLast?_eq_getElem?] at htip
    have hi2 : l.length - 1 = i := by omega
    rw [hi2] at htip
    have hb1 : b1 = tip := by
      rw [h1] at htip
      exact Option.some_injective _ htip
    have hb2 : b2 = b := (Option.some_injective _ h2).symm
    rw [hb1, hb2, hb]

theorem linked_cons {rest : List CompactBlock} {bottom b : CompactBlock}
    (hl : Linked (bottom :: rest)) (hb : bottom.prevHash = b.hash) :
    Linked (b :: bottom :: rest) := by
  intro i b1 b2 h1 h2
  match i with
  | 0 =>
    rw [List.getElem?_cons_zero] at h1
    rw [List.getElem?_cons_succ, List.getElem?_cons_zero] at h2
    have hb1 : b1 = b := (Option.some_injective _ h1).symm
    have hb2 : b2 = bottom := (Option.some_injective _ h2).symm
    rw [hb1, hb2, hb]
  | j + 1 =>
    rw [List.getElem?_cons_succ] at h1 h2
    exact hl j b1 b2 h1 h2

theorem consistent_evictOldest {c : BlockCache} (hc : Consistent c) :
    Consistent (evictOldest c) :=
  linked_drop hc _

theorem consistent_addLive {c : BlockCache} (hc : Consistent c)
    (b : CompactBlock) : Consistent (addLive c b) := by
  unfold addLive
  split
  · exact consistent_evictOldest (linked_singleton b)
  · rename_i tip htip
    split
    · rename_i hcond
      exact consistent_evictOldest (linked_concat hc htip hcond.2)
    · exact hc

theorem consistent_addHistorical {c : BlockCache} (hc : Consistent c)
    (b : CompactBlock) : Consistent (addHistorical c b) := by
  unfold addHistorical
  split
  · exact linked_singleton b
  · rename_i bottom rest hbl
    split
    · rename_i hcond
      have hl : Linked (bottom :: rest) := hbl ▸ hc
      exact linked_cons hl hcond.2
    · exact hc

theorem consistent_truncateFrom {c : BlockCache} (hc : Consistent c)
    (f : Int) : Consistent (truncateFrom c f) :=
  linked_take hc _

theorem consistent_applyCacheOp {c : BlockCache} (hc : Consistent c) :
    ∀ op : CacheOp, Consistent (applyCacheOp c op)
  | .addL b => consistent_addLive hc b
  | .addH b => consistent_addHistorical hc b
  | .trunc f => consistent_truncateFrom hc f
  | .evict => consistent_evictOldest hc

theorem consistent_foldl (ops : List CacheOp) :
    ∀ c : BlockCache, Consistent c → Consistent (ops.foldl applyCacheOp c) := by
  induction ops with
  | nil => exact fun c hc => hc
  | cons op rest ih =>
    exact fun c hc => ih (applyCacheOp c op) (consistent_applyCacheOp hc op)

theorem consistent_runCacheOps (capacity : Nat) (ops : List CacheOp) :
    Consistent (runCacheOps capacity ops) :=
  consistent_foldl ops (emptyCache capacity) linked_nil

/-- C6: for every address, username and password, the connection config built
by `NewZRPCFromCreds` has TLS disabled and HTTP POST mode enabled. -/
theorem newZRPCFromCreds_plaintext_post (addr username password : String) :
    (NewZRPCFromCreds addr username password).disableTLS = true ∧
    (NewZRPCFromCreds addr username password).httpPostMode = true :=
  ⟨rfl, rfl⟩

/-- C2 (code evaluation at the failing input): a config file that parses
successfully but has empty `rpcuser` and `rpcpassword` makes
`NewZRPCFromConf` return a nil client *and a nil error*, because
`errors.Wrap` of a nil error is nil. The intended explicit failure result
never materialises. -/
theorem newZRPCFromConf_missing_creds_nil_error :
    NewZRPCFromConf (.ok ⟨"", "", "", ""⟩) = (none, none) := by
  decide

/-- C7: when the parsed config supplies a username and a password, the
client is built with host `rpcbind` (default `127.0.0.1` when absent) joined
with port `rpcport` (default `23811` when absent), and no error is
returned. -/
theorem newZRPCFromConf_defaults (cfg : IniConfig)
    (hu : cfg.rpcuser ≠ "") (hp : cfg.rpcpassword ≠ "") :
    (NewZRPCFromConf (.ok cfg)).2 = none ∧
    (NewZRPCFromConf (.ok cfg)).1 =
      some (NewZRPCFromCreds
        (joinHostPort (if cfg.rpcbind = "" then "127.0.0.1" else cfg.rpcbind)
                      (if cfg.rpcport = "" then "23811" else cfg.rpcport))
        cfg.rpcuser cfg.rpcpassword) := by
  unfold NewZRPCFromConf
  simp only []
  rw [if_neg]
  · exact ⟨rfl, rfl⟩
  · rintro (h | h)
    · exact hu h
    · exact hp h

/-- C7 witness: a config with credentials set but `rpcbind` and `rpcport`
absent connects to `127.0.0.1:23811`. -/
theorem newZRPCFromConf_defaults_witness :
    (⟨"", "", "u", "p"⟩ : IniConfig).rpcuser ≠ "" ∧
    (⟨"", "", "u", "p"⟩ : IniConfig).rpcpassword ≠ "" ∧
    ((NewZRPCFromConf (.ok ⟨"", "", "u", "p"⟩)).2 = none ∧
     (NewZRPCFromConf (.ok ⟨"", "", "u", "p"⟩)).1 =
       some (NewZRPCFromCreds
         (joinHostPort (if ("" : String) = "" then "127.0.0.1" else "")
                       (if ("" : String) = "" then "23811" else ""))
         "u" "p")) :=
  ⟨by decide, by decide,
   newZRPCFromConf_defaults ⟨"", "", "u", "p"⟩ (by decide) (by decide)⟩

/-- C3 counterexample: at the concrete input where `ini.Load` fails (e.g.
the conf file does not exist), `NewZRPCFromConf` returns a non-nil error,
yet main's RPC setup step does not exit the process — it only warns. -/
theorem rpcSetup_failure_no_exit_counterexample :
    (NewZRPCFromConf (.error "no such file")).2 ≠ none ∧
    rpcSetupExits (.error "no such file") = false := by
  decide

/-- C3 amended: whenever `NewZRPCFromConf` returns a non-nil error, main
logs a warning, falls back to a client built from the default address
`127.0.0.1:23811` with empty credentials, and keeps running: the step never
exits the process. -/
theorem rpcSetup_failure_warns_and_continues
    (loadResult : Except String IniConfig)
    (h : (NewZRPCFromConf loadResult).2 ≠ none) :
    mainRPCSetup loadResult =
      ⟨some (NewZRPCFromCreds "127.0.0.1:23811" "" ""), [.warn]⟩ ∧
    rpcSetupExits loadResult = false := by
  unfold rpcSetupExits mainRPCSetup
  rcases he : NewZRPCFromConf loadResult with ⟨client, err⟩
  cases err with
  | none => exact absurd (by rw [he]) h
  | some e => exact ⟨rfl, rfl⟩

/-- C3 amended witness: a failing config load leads to the fallback client
and no exit. -/
theorem rpcSetup_failure_warns_and_continues_witness :
    (NewZRPCFromConf (.error "e")).2 ≠ none ∧
    (mainRPCSetup (.error "e") =
       ⟨some (NewZRPCFromCreds "127.0.0.1:23811" "" ""), [.warn]⟩ ∧
     rpcSetupExits (.error "e") = false) :=
  ⟨by decide, rpcSetup_failure_warns_and_continues (.error "e") (by decide)⟩

/-- C4 counterexample: on SIGINT the historical ingestor is not signalled to
stop — its call site passes it no channel, so the handler's send on
`stopChan` cannot reach it. -/
theorem historical_ingestor_not_signalled :
    ingestorSignalled "SIGINT" historicalBlockIngestorStopChans = false := by
  decide

/-- C4 amended: each registered shutdown signal makes the handler stop the
gRPC server gracefully and send on `stopChan`; this signals the live
`BlockIngestor` (which was given `stopChan`) but not the
`HistoricalBlockIngestor` (which was given no channel). -/
theorem shutdown_signals_live_ingestor_only
    (s : String) (hs : s ∈ shutdownSignals) :
    signalHandlerActions s = [.gracefulStopServer, .sendOnStopChan] ∧
    ingestorSignalled s blockIngestorStopChans = true ∧
    ingestorSignalled s historicalBlockIngestorStopChans = false := by
  refine ⟨if_pos hs, ?_, ?_⟩
  · simp [ingestorSignalled, signalHandlerActions, if_pos hs,
      blockIngestorStopChans]
  · simp [ingestorSignalled, historicalBlockIngestorStopChans]

/-- C4 amended witness: instantiated at SIGTERM. -/
theorem shutdown_signals_live_ingestor_only_witness :
    "SIGTERM" ∈ shutdownSignals ∧
    (signalHandlerActions "SIGTERM" =
        [.gracefulStopServer, .sendOnStopChan] ∧
     ingestorSignalled "SIGTERM" blockIngestorStopChans = true ∧
     ingestorSignalled "SIGTERM" historicalBlockIngestorStopChans = false) :=
  ⟨by decide, shutdown_signals_live_ingestor_only "SIGTERM" (by decide)⟩

/-- C5: for all reported best heights, sapling heights and cache sizes, the
historical ingestor is started exactly one height below the live ingestor's
start, and its floor argument is the sapling activation height. -/
theorem historical_starts_below_live (blockHeight saplingHeight cacheSize : Int) :
    (mainHistoricalIngestorCall blockHeight saplingHeight cacheSize).startHeight =
      mainLiveIngestorStart blockHeight saplingHeight - 1 ∧
    (mainHistoricalIngestorCall blockHeight saplingHeight cacheSize).floor =
      saplingHeight :=
  ⟨rfl, rfl⟩

/-- C8 counterexample: with the flag defaults (`no-tls` unset) and no TLS
certificate or key path supplied, main's TLS check exits the process. -/
theorem missing_tls_material_exits :
    tlsCheckExits defaultNoTLS "" "" = true := by
  decide

/-- C8 amended: TLS material is optional only when the `no-tls` flag is set;
with `no-tls` set the check never exits, and with `no-tls` unset (the
default) an empty certificate path or an empty key path makes the process
exit. -/
theorem tls_material_required_unless_no_tls :
    (∀ certPath keyPath : String, tlsCheckExits true certPath keyPath = false) ∧
    (∀ keyPath : String, tlsCheckExits false "" keyPath = true) ∧
    (∀ certPath : String, tlsCheckExits false certPath "" = true) := by
  refine ⟨fun c k => ?_, fun k => ?_, fun c => ?_⟩ <;>
    simp [tlsCheckExits]

/-- C9 counterexample: main's `init` registers the sapling-params download
counter, which is not among the four metrics the spec lists, so the
exported metrics are not exactly those four. -/
theorem registered_metrics_not_exactly_four :
    "TotalSaplingParamsCounter" ∈ registeredMetricFields ∧
    "TotalSaplingParamsCounter" ∉ specClaimedMetricFields := by
  decide

/-- C9 amended: every one of the four spec-named counters is registered,
the params-download counters are registered as well, and no sequence of
counter operations ever decreases a counter's value. -/
theorem registered_metrics_superset_and_monotone :
    (specClaimedMetricFields.all
        (fun f => registeredMetricFields.contains f)) = true ∧
    "TotalSproutParamsCounter" ∈ registeredMetricFields ∧
    ∀ (c : Counter) (ops : List CounterOp),
      c.value ≤ (runCounterOps c ops).value := by
  refine ⟨by decide, by decide, fun c ops => ?_⟩
  induction ops generalizing c with
  | nil => exact le_rfl
  | cons op rest ih =>
    refine le_trans ?_ (ih (applyCounterOp c op))
    cases op <;> simp [applyCounterOp]

/-- C10: the live ingestor's starting height is at least the sapling
activation height, at least 100 below the best height is a lower bound too,
and it equals one of the two. -/
theorem cacheStart_is_max (blockHeight saplingHeight : Int) :
    saplingHeight ≤ cacheStart blockHeight saplingHeight ∧
    blockHeight - 100 ≤ cacheStart blockHeight saplingHeight ∧
    (cacheStart blockHeight saplingHeight = saplingHeight ∨
     cacheStart blockHeight saplingHeight = blockHeight - 100) := by
  simp only [cacheStart]
  split <;> omega

/-- C1: in every cache state reachable from the empty cache by any sequence
of live adds, historical adds, truncations and evictions, two resident
blocks at adjacent heights `h` and `h + 1` are hash-linked: the upper
block's `prevHash` equals the lower block's `hash`. -/
theorem cache_adjacent_hash_link (capacity : Nat) (ops : List CacheOp)
    (h : Int) (b1 b2 : CompactBlock)
    (h1 : getBlock (runCacheOps capacity ops) h = some b1)
    (h2 : getBlock (runCacheOps capacity ops) (h + 1) = some b2) :
    b2.prevHash = b1.hash := by
  have hc : Consistent (runCacheOps capacity ops) :=
    consistent_runCacheOps capacity ops
  unfold getBlock at h1 h2
  split at h1
  · exact absurd h1 (by simp)
  · split at h2
    · exact absurd h2 (by simp)
    · rename_i hge1 hge2
      have hidx : (h + 1 - (runCacheOps capacity ops).lo).toNat =
          (h - (runCacheOps capacity ops).lo).toNat + 1 := by omega
      rw [hidx] at h2
      exact hc _ b1 b2 h1 h2

/-- C1 witness: after two consistent live adds at heights 100 and 101, both
blocks are resident and hash-linked. -/
theorem cache_adjacent_hash_link_witness :
    getBlock (runCacheOps 10 [.addL ⟨100, 1, 0⟩, .addL ⟨101, 2, 1⟩]) 100 =
      some ⟨100, 1, 0⟩ ∧
    getBlock (runCacheOps 10 [.addL ⟨100, 1, 0⟩, .addL ⟨101, 2, 1⟩]) (100 + 1) =
      some ⟨101, 2, 1⟩ ∧
    (⟨101, 2, 1⟩ : CompactBlock).prevHash = (⟨100, 1, 0⟩ : CompactBlock).hash :=
  ⟨by decide, by decide,
   cache_adjacent_hash_link 10 [.addL ⟨100, 1, 0⟩, .addL ⟨101, 2, 1⟩] 100
     ⟨100, 1, 0⟩ ⟨101, 2, 1⟩ (by decide) (by decide)⟩

end Lightwalletd
